import Mathlib

/-!
# Verification of the advanced-wireframe rendering core

A shallow embedding of the rendering pipeline of the advanced-wireframe
repository, together with theorems settling the specification claims.

Numbers are modelled as exact rationals (`ℚ`); the JS code computes with
IEEE doubles, which we idealize as exact arithmetic.  The square root in
the mesh bounding radius is modelled in `ℝ`.

Embedded source files:
* `src/core/renderHelpers.ts` — the pipeline orchestrator
  (`projectSceneToPolygonWireframe`), `projectMeshVertices`,
  `collectPolygonSegments`, `polygonDepth`,
  `transformVerticesToCameraSpace`.
* `src/core/Mesh.ts` — `Mesh`, `Mesh.fromData`,
  `Mesh.computeBoundingRadius`.
* `src/io/meshLoader.ts` — the `Polygon` / `MeshData` shapes.

The math and data-model modules (`src/math/vec3.ts`, `src/math/mat4.ts`,
`src/math/quat.ts`, `src/math/projection.ts`, `src/math/frustum.ts`,
`src/core/Camera.ts`, `src/core/Object3D.ts`, `src/core/Scene.ts`) are
not present in the repository snapshot; where the pipeline needs them
they are modelled from the specification, and each such definition is
marked `Modelled from the spec:`.
-/

namespace Wireframe

/-- 3-component vector over exact rationals.
Modelled from the spec: Vector3 value type (src/math/vec3.ts is absent). -/
structure Vec3 where
  x : ℚ
  y : ℚ
  z : ℚ
deriving DecidableEq, Repr

/-- 4-component vector.
Modelled from the spec: clip-space coordinate (src/math/vec4.ts is absent). -/
structure Vec4 where
  x : ℚ
  y : ℚ
  z : ℚ
  w : ℚ
deriving DecidableEq, Repr

/-- Squared length of a `Vec3` (`lengthSq` in src/math/vec3.ts). -/
def Vec3.lengthSq (v : Vec3) : ℚ :=
  v.x * v.x + v.y * v.y + v.z * v.z

/-- Componentwise negation of a `Vec3`. -/
def Vec3.neg (v : Vec3) : Vec3 :=
  ⟨-v.x, -v.y, -v.z⟩

/-- Componentwise subtraction (spec §4.5.3a edge vectors). -/
def Vec3.sub (a b : Vec3) : Vec3 :=
  ⟨a.x - b.x, a.y - b.y, a.z - b.z⟩

/-- Dot product of two `Vec3`s. -/
def Vec3.dot (a b : Vec3) : ℚ :=
  a.x * b.x + a.y * b.y + a.z * b.z

/-- Cross product of two `Vec3`s. -/
def Vec3.cross (a b : Vec3) : Vec3 :=
  ⟨a.y * b.z - a.z * b.y, a.z * b.x - a.x * b.z, a.x * b.y - a.y * b.x⟩

/-- 4×4 matrix, row-major, acting on column vectors on the right.
Modelled from the spec: Matrix4, `A.multiply(B)` applies `B` then `A`
(src/math/mat4.ts is absent). -/
structure Mat4 where
  m00 : ℚ
  m01 : ℚ
  m02 : ℚ
  m03 : ℚ
  m10 : ℚ
  m11 : ℚ
  m12 : ℚ
  m13 : ℚ
  m20 : ℚ
  m21 : ℚ
  m22 : ℚ
  m23 : ℚ
  m30 : ℚ
  m31 : ℚ
  m32 : ℚ
  m33 : ℚ
deriving DecidableEq, Repr

/-- Apply a `Mat4` to a `Vec4` (column-vector convention). -/
def Mat4.transformVec4 (m : Mat4) (v : Vec4) : Vec4 :=
  ⟨m.m00 * v.x + m.m01 * v.y + m.m02 * v.z + m.m03 * v.w,
   m.m10 * v.x + m.m11 * v.y + m.m12 * v.z + m.m13 * v.w,
   m.m20 * v.x + m.m21 * v.y + m.m22 * v.z + m.m23 * v.w,
   m.m30 * v.x + m.m31 * v.y + m.m32 * v.z + m.m33 * v.w⟩

/-- Matrix product `a · b`: applying the result applies `b` first, then `a`. -/
def Mat4.multiply (a b : Mat4) : Mat4 :=
  ⟨a.m00 * b.m00 + a.m01 * b.m10 + a.m02 * b.m20 + a.m03 * b.m30,
   a.m00 * b.m01 + a.m01 * b.m11 + a.m02 * b.m21 + a.m03 * b.m31,
   a.m00 * b.m02 + a.m01 * b.m12 + a.m02 * b.m22 + a.m03 * b.m32,
   a.m00 * b.m03 + a.m01 * b.m13 + a.m02 * b.m23 + a.m03 * b.m33,
   a.m10 * b.m00 + a.m11 * b.m10 + a.m12 * b.m20 + a.m13 * b.m30,
   a.m10 * b.m01 + a.m11 * b.m11 + a.m12 * b.m21 + a.m13 * b.m31,
   a.m10 * b.m02 + a.m11 * b.m12 + a.m12 * b.m22 + a.m13 * b.m32,
   a.m10 * b.m03 + a.m11 * b.m13 + a.m12 * b.m23 + a.m13 * b.m33,
   a.m20 * b.m00 + a.m21 * b.m10 + a.m22 * b.m20 + a.m23 * b.m30,
   a.m20 * b.m01 + a.m21 * b.m11 + a.m22 * b.m21 + a.m23 * b.m31,
   a.m20 * b.m02 + a.m21 * b.m12 + a.m22 * b.m22 + a.m23 * b.m32,
   a.m20 * b.m03 + a.m21 * b.m13 + a.m22 * b.m23 + a.m23 * b.m33,
   a.m30 * b.m00 + a.m31 * b.m10 + a.m32 * b.m20 + a.m33 * b.m30,
   a.m30 * b.m01 + a.m31 * b.m11 + a.m32 * b.m21 + a.m33 * b.m31,
   a.m30 * b.m02 + a.m31 * b.m12 + a.m32 * b.m22 + a.m33 * b.m32,
   a.m30 * b.m03 + a.m31 * b.m13 + a.m32 * b.m23 + a.m33 * b.m33⟩

/-- The identity matrix. -/
def Mat4.identity : Mat4 :=
  ⟨1, 0, 0, 0,
   0, 1, 0, 0,
   0, 0, 1, 0,
   0, 0, 0, 1⟩

/-- Translation matrix (spec §3: `Translate(position)`). -/
def Mat4.translation (t : Vec3) : Mat4 :=
  ⟨1, 0, 0, t.x,
   0, 1, 0, t.y,
   0, 0, 1, t.z,
   0, 0, 0, 1⟩

/-- Scaling matrix (spec §3: `Scale(scale)`). -/
def Mat4.scaling (s : Vec3) : Mat4 :=
  ⟨s.x, 0, 0, 0,
   0, s.y, 0, 0,
   0, 0, s.z, 0,
   0, 0, 0, 1⟩

/-- Unit quaternion for orientations.
Modelled from the spec: Quaternion (src/math/quat.ts is absent). -/
structure Quat where
  x : ℚ
  y : ℚ
  z : ℚ
  w : ℚ
deriving DecidableEq, Repr

/-- The identity orientation. -/
def Quat.identity : Quat := ⟨0, 0, 0, 1⟩

/-- Quaternion conjugate; the inverse for unit quaternions (spec §3). -/
def Quat.conjugate (q : Quat) : Quat := ⟨-q.x, -q.y, -q.z, q.w⟩

/-- Standard rotation matrix of a unit quaternion (spec §3: convertible
to a rotation matrix). -/
def Quat.toMat4 (q : Quat) : Mat4 :=
  ⟨1 - 2 * (q.y * q.y + q.z * q.z), 2 * (q.x * q.y - q.z * q.w),
     2 * (q.x * q.z + q.y * q.w), 0,
   2 * (q.x * q.y + q.z * q.w), 1 - 2 * (q.x * q.x + q.z * q.z),
     2 * (q.y * q.z - q.x * q.w), 0,
   2 * (q.x * q.z - q.y * q.w), 2 * (q.y * q.z + q.x * q.w),
     1 - 2 * (q.x * q.x + q.y * q.y), 0,
   0, 0, 0, 1⟩

/-- Screen viewport (src/math/projection.ts `Viewport`). -/
structure Viewport where
  width : ℚ
  height : ℚ
deriving DecidableEq, Repr

/-- Result of `projectPoint`: screen position, clip-space w, behind flag. -/
structure ProjectedPoint where
  x : ℚ
  y : ℚ
  clipW : ℚ
  behind : Bool
deriving DecidableEq, Repr

/-- Modelled from the spec: `projectPoint(point, mvp, viewport)`
(src/math/projection.ts is absent).  Spec §4.2: transform `(p, 1)` by
`mvp` to clip coordinates; `behind` iff `cw ≤ 0` or `cz/cw ∉ [−1, 1]`;
otherwise map NDC to screen with the Y flip.  When `behind` is set the
screen coordinates are not meaningful to the caller. -/
def projectPoint (p : Vec3) (mvp : Mat4) (viewport : Viewport) : ProjectedPoint :=
  let c := mvp.transformVec4 ⟨p.x, p.y, p.z, 1⟩
  let behind : Bool := decide (c.w ≤ 0) || decide (c.z / c.w < -1) || decide (1 < c.z / c.w)
  let ndx := c.x / c.w
  let ndy := c.y / c.w
  ⟨(ndx * (1/2) + 1/2) * viewport.width,
   (1 - (ndy * (1/2) + 1/2)) * viewport.height,
   c.w, behind⟩

/-- A polygon: opaque color token and vertex indices into the mesh's
vertex array (src/io/meshLoader.ts `Polygon`). -/
structure Polygon where
  color : String
  vertexIndices : List ℕ
deriving DecidableEq, Repr

/-- Renderable geometry as consumed by the orchestrator: the `MeshLike`
shape of src/core/renderHelpers.ts (`vertices`, `polygons`) together
with the `boundingRadius` field the orchestrator reads from
`object.mesh` (spec §3 Mesh). -/
structure RenderMesh where
  vertices : List Vec3
  polygons : List Polygon
  boundingRadius : ℚ
deriving DecidableEq, Repr

/-- Modelled from the spec: Object3D pose node (src/core/Object3D.ts is
absent).  The spec allows rotation as Euler angles or a quaternion; the
quaternion form is used here. -/
structure Object3D where
  mesh : RenderMesh
  position : Vec3
  rotation : Quat
  scale : Vec3
deriving DecidableEq, Repr

/-- Modelled from the spec: `getModelMatrix()` =
`Translate(position) · Rotate(rotation) · Scale(scale)` (spec §3). -/
def Object3D.getModelMatrix (o : Object3D) : Mat4 :=
  ((Mat4.translation o.position).multiply o.rotation.toMat4).multiply
    (Mat4.scaling o.scale)

/-- Modelled from the spec: Camera (src/core/Camera.ts is absent). -/
structure Camera where
  position : Vec3
  orientation : Quat
  fovYRad : ℚ
  near : ℚ
  far : ℚ
deriving DecidableEq, Repr

/-- Modelled from the spec: `getViewMatrix()` is the rigid inverse of
the camera's world transform, from the conjugate orientation and the
negated position (spec §3). -/
def Camera.getViewMatrix (c : Camera) : Mat4 :=
  c.orientation.conjugate.toMat4.multiply (Mat4.translation c.position.neg)

/-- Modelled from the spec: Scene (src/core/Scene.ts is absent). -/
structure Scene where
  camera : Camera
  objects : List Object3D
deriving DecidableEq, Repr

/-- A 2D line segment `[x1, y1, x2, y2]` in screen coordinates. -/
abbrev Segment : Type := ℚ × ℚ × ℚ × ℚ

/-- `ColoredSegmentBatch` of src/core/renderHelpers.ts. -/
structure ColoredSegmentBatch where
  color : String
  segments : List Segment
deriving DecidableEq, Repr

/-- `DrawablePolygonBatch` of src/core/renderHelpers.ts: a colored
segment batch together with the camera-space depth used for sorting. -/
structure DrawablePolygonBatch where
  color : String
  segments : List Segment
  depth : ℚ
deriving DecidableEq, Repr

/-- `projectMeshVertices` (src/core/renderHelpers.ts lines 32–49):
project each vertex; `some` screen point when valid, `none` when the
point is behind the camera or invalid. -/
def projectMeshVertices (vertices : List Vec3) (mvp : Mat4)
    (viewport : Viewport) : List (Option Vec3) :=
  vertices.map (fun v =>
    let p := projectPoint v mvp viewport
    if p.behind then none else some ⟨p.x, p.y, 0⟩)

/-- JS array access `projectedVertices[idx]`: out-of-bounds access
yields `undefined`, which like the stored `null` is falsy; both are
modelled as `none`. -/
def lookupProjected (projected : List (Option Vec3)) (idx : ℕ) : Option Vec3 :=
  match projected.get? idx with
  | some (some v) => some v
  | _ => none

/-- The consecutive index pairs of a polygon boundary, wrapping
last→first: pair `i` is `(indices[i], indices[(i+1) % len])`. -/
def cyclicPairs (indices : List ℕ) : List (ℕ × ℕ) :=
  indices.zip (indices.rotate 1)

/-- The loop body of `collectPolygonSegments`: build one segment per
index pair, aborting with `none` as soon as either endpoint is invalid. -/
def segsOfPairs (projected : List (Option Vec3)) :
    List (ℕ × ℕ) → Option (List Segment)
  | [] => some []
  | (a, b) :: rest =>
    match lookupProjected projected a, lookupProjected projected b with
    | some va, some vb =>
      (segsOfPairs projected rest).map (fun s => (va.x, va.y, vb.x, vb.y) :: s)
    | _, _ => none

/-- `collectPolygonSegments` (src/core/renderHelpers.ts lines 85–105):
fewer than 2 indices returns the empty segment list; otherwise one
segment per consecutive pair (wrapping), or `none` (the JS `null`) if
any referenced projected vertex is invalid or behind. -/
def collectPolygonSegments (projected : List (Option Vec3))
    (polygon : Polygon) : Option (List Segment) :=
  if polygon.vertexIndices.length < 2 then some []
  else segsOfPairs projected (cyclicPairs polygon.vertexIndices)

/-- `transformVerticesToCameraSpace` (src/core/renderHelpers.ts lines
55–65): transform each vertex by `view · model`, keeping x, y, z. -/
def transformVerticesToCameraSpace (vertices : List Vec3)
    (viewModel : Mat4) : List Vec3 :=
  vertices.map (fun v =>
    let c := viewModel.transformVec4 ⟨v.x, v.y, v.z, 1⟩
    (⟨c.x, c.y, c.z⟩ : Vec3))

/-- `polygonDepth` (src/core/renderHelpers.ts lines 71–78): average
camera-space z of the polygon's vertex indices; 0 for no indices.
The JS code would throw on an out-of-range index; in the pipeline the
call is guarded by `collectPolygonSegments`, which rejects such
polygons first, so the default value of `getD` is never reached. -/
def polygonDepth (vertexIndices : List ℕ) (cameraSpaceVertices : List Vec3) : ℚ :=
  if vertexIndices.length = 0 then 0
  else (vertexIndices.map
          (fun i => (cameraSpaceVertices.getD i ⟨0, 0, 0⟩).z)).sum /
       vertexIndices.length

/-- The per-polygon step of the orchestrator loop (src/core/
renderHelpers.ts lines 151–157): keep the polygon iff its segments are
non-null and non-empty, attaching color and depth. -/
def emitPolygon (cameraSpaceVertices : List Vec3)
    (projected : List (Option Vec3)) (polygon : Polygon) :
    Option DrawablePolygonBatch :=
  match collectPolygonSegments projected polygon with
  | none => none
  | some segments =>
    if segments.length > 0 then
      some ⟨polygon.color, segments,
            polygonDepth polygon.vertexIndices cameraSpaceVertices⟩
    else none

/-- Modelled from the spec: the type of `isSphereInFrustum`
(src/math/frustum.ts is absent).  Arguments in call order:
world center, world radius, view matrix, fovY (radians), aspect, near,
far.  The orchestrator claims depend only on the call pattern and the
boolean outcome, so the test is threaded as an opaque parameter. -/
def FrustumTest : Type :=
  Vec3 → ℚ → Mat4 → ℚ → ℚ → ℚ → ℚ → Bool

/-- The per-object body of the orchestrator loop (src/core/
renderHelpers.ts lines 124–158): frustum-cull on the world bounding
sphere (center = position, radius = boundingRadius · max scale
component); for survivors compute the model matrix, camera-space
vertices and projected vertices, and emit one batch per surviving
polygon. -/
def objectBatches (isInFrustum : FrustumTest) (view : Mat4)
    (fovYRad aspect near far : ℚ) (viewProj : Mat4) (viewport : Viewport)
    (object : Object3D) : List DrawablePolygonBatch :=
  let mesh := object.mesh
  let worldCenter := object.position
  let worldRadius :=
    mesh.boundingRadius * max object.scale.x (max object.scale.y object.scale.z)
  if isInFrustum worldCenter worldRadius view fovYRad aspect near far = false
  then []
  else
    let model := object.getModelMatrix
    let viewModel := view.multiply model
    let mvp := viewProj.multiply model
    let cameraSpaceVertices := transformVerticesToCameraSpace mesh.vertices viewModel
    let projected := projectMeshVertices mesh.vertices mvp viewport
    mesh.polygons.filterMap (emitPolygon cameraSpaceVertices projected)

/-- The single cross-object collection the orchestrator pushes batches
into, in code order (object order, then polygon order), before the
depth sort. -/
def collectedBatches (isInFrustum : FrustumTest) (scene : Scene)
    (viewProj : Mat4) (viewport : Viewport) : List DrawablePolygonBatch :=
  let view := scene.camera.getViewMatrix
  let aspect := viewport.width / viewport.height
  scene.objects.flatMap
    (objectBatches isInFrustum view scene.camera.fovYRad aspect
      scene.camera.near scene.camera.far viewProj viewport)

/-- Stable insertion of a batch into a depth-sorted list: the new
element goes before the first element it compares ≤ to, so an earlier
element is never moved past an equal later one. -/
def insertByDepth (b : DrawablePolygonBatch) :
    List DrawablePolygonBatch → List DrawablePolygonBatch
  | [] => [b]
  | h :: t => if b.depth ≤ h.depth then b :: h :: t else h :: insertByDepth b t

/-- The JS `batches.sort((a, b) => a.depth - b.depth)` (src/core/
renderHelpers.ts line 161): a stable sort by depth ascending, as
required of `Array.prototype.sort` by ECMAScript 2019.  Modelled by a
stable insertion sort — any stable comparison sort produces the same
sequence. -/
def sortByDepth (l : List DrawablePolygonBatch) : List DrawablePolygonBatch :=
  l.foldr insertByDepth []

/-- `projectSceneToPolygonWireframe` (src/core/renderHelpers.ts lines
114–164): cull objects, emit per-polygon batches into one collection,
sort it by depth ascending, and return it.  The returned records are
the `DrawablePolygonBatch` records themselves — the code narrows only
the static type to `ColoredSegmentBatch[]`, so the `depth` field is
still present on every returned record. -/
def projectSceneToPolygonWireframe (isInFrustum : FrustumTest)
    (scene : Scene) (viewProj : Mat4) (viewport : Viewport) :
    List DrawablePolygonBatch :=
  sortByDepth (collectedBatches isInFrustum scene viewProj viewport)

/-- The camera-space vertices the orchestrator computes for one
surviving object (`view · model` applied to the mesh vertices). -/
def objectCameraSpaceVertices (view : Mat4) (object : Object3D) : List Vec3 :=
  transformVerticesToCameraSpace object.mesh.vertices
    (view.multiply object.getModelMatrix)

/-- The projected screen vertices the orchestrator computes for one
surviving object (`viewProj · model` through `projectPoint`). -/
def objectProjectedVertices (viewProj : Mat4) (viewport : Viewport)
    (object : Object3D) : List (Option Vec3) :=
  projectMeshVertices object.mesh.vertices
    (viewProj.multiply object.getModelMatrix) viewport

/-- Modelled from the spec: the `{color, segments}` view of a batch
with the depth field removed (spec §4.5 step 5 claims the returned
sequence has this shape). -/
def stripDepth (b : DrawablePolygonBatch) : ColoredSegmentBatch :=
  ⟨b.color, b.segments⟩

/-- Modelled from the spec: the arithmetic mean of the camera-space z
coordinates (vertices transformed by `view · model`) of the vertices
listed in a polygon's `vertexIndices` (spec §4.5 step 3c). -/
def meanCameraZ (viewModel : Mat4) (vertices : List Vec3)
    (indices : List ℕ) : ℚ :=
  (indices.map (fun i =>
     let v := vertices.getD i ⟨0, 0, 0⟩
     (viewModel.transformVec4 ⟨v.x, v.y, v.z, 1⟩).z)).sum / indices.length

/-- Modelled from the spec: the backface normal of a polygon,
`n = (v1 − v0) × (v2 − v0)` from the polygon's first three
camera-space vertices (spec §4.5 step 3a).  Used only to state the
backface claim; the code computes no such normal. -/
def polygonBackfaceNormal (cameraSpaceVertices : List Vec3)
    (indices : List ℕ) : Vec3 :=
  let v0 := cameraSpaceVertices.getD (indices.getD 0 0) ⟨0, 0, 0⟩
  let v1 := cameraSpaceVertices.getD (indices.getD 1 0) ⟨0, 0, 0⟩
  let v2 := cameraSpaceVertices.getD (indices.getD 2 0) ⟨0, 0, 0⟩
  Vec3.cross (Vec3.sub v1 v0) (Vec3.sub v2 v0)

/-- The camera-space position of a polygon's first vertex, the view
direction of the spec's backface test (spec §4.5 step 3a). -/
def polygonViewDir (cameraSpaceVertices : List Vec3)
    (indices : List ℕ) : Vec3 :=
  cameraSpaceVertices.getD (indices.getD 0 0) ⟨0, 0, 0⟩

/-- `MeshData` as produced by the loader (src/io/meshLoader.ts):
local-space points, an edge list, and polygons. -/
structure MeshData where
  points : List Vec3
  vertices : List (ℕ × ℕ)
  polygons : List Polygon
deriving DecidableEq, Repr

/-- `Mesh.computeBoundingRadius` (src/core/Mesh.ts lines 35–42): track
the maximum squared length over the points (strict-greater update),
then take the square root once. -/
noncomputable def Mesh.computeBoundingRadius (points : List Vec3) : ℝ :=
  Real.sqrt
    ((points.foldl (fun maxSq p => if p.lengthSq > maxSq then p.lengthSq else maxSq)
       0 : ℚ) : ℝ)

/-- `Mesh` (src/core/Mesh.ts): immutable points, edge list, polygons,
and the bounding radius computed once at construction. -/
structure Mesh where
  points : List Vec3
  vertices : List (ℕ × ℕ)
  polygons : List Polygon
  boundingRadius : ℝ

/-- The `Mesh` constructor (src/core/Mesh.ts lines 14–23): stores the
three fields unchanged and computes the bounding radius.  It performs
no other computation — in particular no validation of any kind. -/
noncomputable def Mesh.create (points : List Vec3)
    (vertices : List (ℕ × ℕ)) (polygons : List Polygon) : Mesh :=
  ⟨points, vertices, polygons, Mesh.computeBoundingRadius points⟩

/-- `Mesh.fromData` (src/core/Mesh.ts lines 28–30): delegate to the
constructor with the loaded fields. -/
noncomputable def Mesh.fromData (data : MeshData) : Mesh :=
  Mesh.create data.points data.vertices data.polygons

/-- Modelled from the spec: the construction contract of §6 — every
`vertexIndices` entry lies within `[0, vertexCount)`.  The code
contains no such check; this predicate only states the claim. -/
def meshDataIndicesValid (data : MeshData) : Prop :=
  ∀ p ∈ data.polygons, ∀ i ∈ p.vertexIndices, i < data.points.length

instance (data : MeshData) : Decidable (meshDataIndicesValid data) := by
  unfold meshDataIndicesValid; infer_instance

/-- Modelled from the spec: Euclidean distance from the local origin to
a point, `√(x² + y² + z²)` (spec §3 Mesh boundingRadius). -/
noncomputable def distToOrigin (v : Vec3) : ℝ :=
  Real.sqrt ((v.lengthSq : ℚ) : ℝ)

/-! ### Concrete inputs used by witnesses and counterexamples -/

/-- A frustum test that accepts every sphere. -/
def frustumAlwaysTrue : FrustumTest := fun _ _ _ _ _ _ _ => true

/-- A frustum test that rejects every sphere. -/
def frustumAlwaysFalse : FrustumTest := fun _ _ _ _ _ _ _ => false

/-- A camera at the origin with the identity orientation, so that its
view matrix is the identity. -/
def originCamera : Camera := ⟨⟨0, 0, 0⟩, Quat.identity, 1, 1/10, 100⟩

/-- A view-projection matrix that keeps x and y, zeroes clip z and sets
clip w to 1, so every point projects validly. -/
def flatViewProj : Mat4 :=
  ⟨1, 0, 0, 0,
   0, 1, 0, 0,
   0, 0, 0, 0,
   0, 0, 0, 1⟩

/-- An 800×600 viewport. -/
def stdViewport : Viewport := ⟨800, 600⟩

/-- A triangle wound so that its backface normal satisfies
`dot(n, v0) ≥ 0` in camera space (back-facing per the spec's test). -/
def backfaceMesh : RenderMesh :=
  ⟨[⟨0, 0, -1/2⟩, ⟨1, 1, -1/2⟩, ⟨1, 0, -1/2⟩], [⟨"red", [0, 1, 2]⟩], 5⟩

/-- The back-facing triangle at the identity pose. -/
def backfaceObject : Object3D :=
  ⟨backfaceMesh, ⟨0, 0, 0⟩, Quat.identity, ⟨1, 1, 1⟩⟩

/-- A scene holding only the back-facing triangle. -/
def backfaceScene : Scene := ⟨originCamera, [backfaceObject]⟩

/-- Two polygons at camera-space depths −5 (listed first) and −10. -/
def twoDepthMesh : RenderMesh :=
  ⟨[⟨0, 0, -5⟩, ⟨1, 0, -5⟩, ⟨0, 0, -10⟩, ⟨1, 0, -10⟩],
   [⟨"near", [0, 1]⟩, ⟨"far", [2, 3]⟩], 11⟩

/-- The two-depth mesh at the identity pose. -/
def twoDepthObject : Object3D :=
  ⟨twoDepthMesh, ⟨0, 0, 0⟩, Quat.identity, ⟨1, 1, 1⟩⟩

/-- A scene holding the two-depth object. -/
def twoDepthScene : Scene := ⟨originCamera, [twoDepthObject]⟩

/-- A polygon referencing vertex index 5 of a one-point mesh. -/
def outOfRangePolygon : Polygon := ⟨"red", [5]⟩

/-- Mesh data whose only polygon references an out-of-range vertex. -/
def outOfRangeMeshData : MeshData :=
  ⟨[⟨0, 0, 0⟩], [], [outOfRangePolygon]⟩

/-- A mesh whose second vertex projects behind the camera under
`flatBehindViewProj` (clip w = −1 for z = 1). -/
def behindMesh : RenderMesh :=
  ⟨[⟨0, 0, 0⟩, ⟨1, 0, 1⟩, ⟨1, 1, 0⟩], [⟨"blue", [0, 1, 2]⟩], 2⟩

/-- A view-projection whose clip w is `−z`, so points with `z ≥ 0` are
flagged behind (clip w ≤ 0) and points with `z < 0` are valid. -/
def negZWViewProj : Mat4 :=
  ⟨1, 0, 0, 0,
   0, 1, 0, 0,
   0, 0, 0, 0,
   0, 0, -1, 0⟩

unseal Rat.add Rat.mul Rat.inv Rat.sub

/-! ### Properties of the stable depth sort -/

theorem insertByDepth_perm (b : DrawablePolygonBatch)
    (l : List DrawablePolygonBatch) : (insertByDepth b l).Perm (b :: l) := by
  induction l with
  | nil => exact List.Perm.refl _
  | cons h t ih =>
    by_cases hle : b.depth ≤ h.depth
    · rw [insertByDepth, if_pos hle]
    · rw [insertByDepth, if_neg hle]
      exact (ih.cons h).trans (List.Perm.swap b h t)

theorem sortByDepth_perm (l : List DrawablePolygonBatch) :
    (sortByDepth l).Perm l := by
  induction l with
  | nil => exact List.Perm.refl _
  | cons h t ih =>
    exact (insertByDepth_perm h (sortByDepth t)).trans (ih.cons h)

theorem pairwise_insertByDepth (b : DrawablePolygonBatch)
    {l : List DrawablePolygonBatch}
    (hl : l.Pairwise (fun a c => a.depth ≤ c.depth)) :
    (insertByDepth b l).Pairwise (fun a c => a.depth ≤ c.depth) := by
  induction l with
  | nil => simp [insertByDepth]
  | cons h t ih =>
    rcases List.pairwise_cons.mp hl with ⟨hh, ht⟩
    by_cases hle : b.depth ≤ h.depth
    · rw [insertByDepth, if_pos hle]
      refine List.pairwise_cons.mpr ⟨?_, hl⟩
      intro a ha
      rcases List.mem_cons.mp ha with rfl | ha
      · exact hle
      · exact le_trans hle (hh a ha)
    · rw [insertByDepth, if_neg hle]
      refine List.pairwise_cons.mpr ⟨?_, ih ht⟩
      intro a ha
      rcases List.mem_cons.mp ((insertByDepth_perm b t).mem_iff.mp ha) with heq | ha
      · exact heq ▸ le_of_not_le hle
      · exact hh a ha

theorem pairwise_sortByDepth (l : List DrawablePolygonBatch) :
    (sortByDepth l).Pairwise (fun a c => a.depth ≤ c.depth) := by
  induction l with
  | nil => simp [sortByDepth]
  | cons h t ih => exact pairwise_insertByDepth h ih

theorem filter_insertByDepth_of_eq (b : DrawablePolygonBatch)
    (l : List DrawablePolygonBatch) {d : ℚ} (hb : b.depth = d) :
    (insertByDepth b l).filter (fun x => decide (x.depth = d)) =
      b :: l.filter (fun x => decide (x.depth = d)) := by
  induction l with
  | nil => simp [insertByDepth, hb]
  | cons h t ih =>
    by_cases hle : b.depth ≤ h.depth
    · rw [insertByDepth, if_pos hle]
      simp [List.filter_cons, hb]
    · rw [insertByDepth, if_neg hle]
      have hne : ¬ h.depth = d := by
        intro hd
        exact hle (le_of_eq (hb.trans hd.symm))
      simp [List.filter_cons, hne, ih]

theorem filter_insertByDepth_of_ne (b : DrawablePolygonBatch)
    (l : List DrawablePolygonBatch) {d : ℚ} (hb : ¬ b.depth = d) :
    (insertByDepth b l).filter (fun x => decide (x.depth = d)) =
      l.filter (fun x => decide (x.depth = d)) := by
  induction l with
  | nil => simp [insertByDepth, hb]
  | cons h t ih =>
    by_cases hle : b.depth ≤ h.depth
    · rw [insertByDepth, if_pos hle]
      simp [List.filter_cons, hb]
    · rw [insertByDepth, if_neg hle]
      simp [List.filter_cons, ih]

theorem filter_sortByDepth (l : List DrawablePolygonBatch) (d : ℚ) :
    (sortByDepth l).filter (fun x => decide (x.depth = d)) =
      l.filter (fun x => decide (x.depth = d)) := by
  induction l with
  | nil => rfl
  | cons h t ih =>
    show (insertByDepth h (sortByDepth t)).filter _ = _
    by_cases hd : h.depth = d
    · rw [filter_insertByDepth_of_eq h _ hd, ih]
      simp [List.filter_cons, hd]
    · rw [filter_insertByDepth_of_ne h _ hd, ih]
      simp [List.filter_cons, hd]

/-! ### Properties of segment collection -/

theorem length_projectMeshVertices (vertices : List Vec3) (mvp : Mat4)
    (viewport : Viewport) :
    (projectMeshVertices vertices mvp viewport).length = vertices.length := by
  simp [projectMeshVertices]

theorem lookupProjected_lt_of_isSome {projected : List (Option Vec3)} {i : ℕ}
    (h : (lookupProjected projected i).isSome) : i < projected.length := by
  unfold lookupProjected at h
  cases hg : projected.get? i with
  | none => rw [hg] at h; simp at h
  | some o =>
    rcases List.get?_eq_some.mp hg with ⟨hlt, _⟩
    exact hlt

theorem lookupProjected_of_length_le {projected : List (Option Vec3)} {i : ℕ}
    (h : projected.length ≤ i) : lookupProjected projected i = none := by
  unfold lookupProjected
  rw [List.get?_eq_none.mpr h]

theorem lookupProjected_projectMesh_none {vertices : List Vec3} {mvp : Mat4}
    {viewport : Viewport} {i : ℕ} (hlt : i < vertices.length)
    (hbehind : (projectPoint (vertices.getD i ⟨0, 0, 0⟩) mvp viewport).behind = true) :
    lookupProjected (projectMeshVertices vertices mvp viewport) i = none := by
  rw [List.getD_eq_getElem _ _ hlt] at hbehind
  unfold lookupProjected projectMeshVertices
  rw [List.get?_eq_getElem?, List.getElem?_map,
    List.getElem?_eq_getElem hlt]
  simp [hbehind]

theorem lookupProjected_projectMesh_isSome {vertices : List Vec3} {mvp : Mat4}
    {viewport : Viewport} {i : ℕ} (hlt : i < vertices.length)
    (hfront : (projectPoint (vertices.getD i ⟨0, 0, 0⟩) mvp viewport).behind = false) :
    (lookupProjected (projectMeshVertices vertices mvp viewport) i).isSome := by
  rw [List.getD_eq_getElem _ _ hlt] at hfront
  unfold lookupProjected projectMeshVertices
  rw [List.get?_eq_getElem?, List.getElem?_map,
    List.getElem?_eq_getElem hlt]
  simp [hfront]

theorem cyclicPairs_map_fst (l : List ℕ) :
    (cyclicPairs l).map Prod.fst = l :=
  List.map_fst_zip l (l.rotate 1) (by rw [List.length_rotate])

theorem cyclicPairs_length (l : List ℕ) :
    (cyclicPairs l).length = l.length := by
  simp [cyclicPairs, List.length_rotate]

theorem exists_fst_cyclicPairs {l : List ℕ} {i : ℕ} (hi : i ∈ l) :
    ∃ pr ∈ cyclicPairs l, pr.1 = i := by
  have hmap := cyclicPairs_map_fst l
  rw [← hmap] at hi
  rcases List.mem_map.mp hi with ⟨pr, hpr, heq⟩
  exact ⟨pr, hpr, heq⟩

theorem fst_mem_of_mem_cyclicPairs {l : List ℕ} {pr : ℕ × ℕ}
    (h : pr ∈ cyclicPairs l) : pr.1 ∈ l :=
  (List.of_mem_zip (by exact h)).1

theorem snd_mem_of_mem_cyclicPairs {l : List ℕ} {pr : ℕ × ℕ}
    (h : pr ∈ cyclicPairs l) : pr.2 ∈ l :=
  List.mem_rotate.mp (List.of_mem_zip (by exact h)).2

theorem segsOfPairs_eq_none {projected : List (Option Vec3)}
    {pairs : List (ℕ × ℕ)} {pr : ℕ × ℕ} (hmem : pr ∈ pairs)
    (hnone : lookupProjected projected pr.1 = none) :
    segsOfPairs projected pairs = none := by
  induction pairs with
  | nil => cases hmem
  | cons hd t ih =>
    obtain ⟨a, b⟩ := hd
    rcases List.mem_cons.mp hmem with heq | hmem'
    · subst heq
      simp only [segsOfPairs]
      rw [hnone]
    · simp only [segsOfPairs]
      cases hA : lookupProjected projected a with
      | none => rfl
      | some va =>
        cases hB : lookupProjected projected b with
        | none => rfl
        | some vb => rw [ih hmem']; rfl

theorem segsOfPairs_isSome_all {projected : List (Option Vec3)}
    {pairs : List (ℕ × ℕ)}
    (h : ∀ pr ∈ pairs, (lookupProjected projected pr.1).isSome ∧
      (lookupProjected projected pr.2).isSome) :
    ∃ segs, segsOfPairs projected pairs = some segs ∧
      segs.length = pairs.length := by
  induction pairs with
  | nil => exact ⟨[], rfl, rfl⟩
  | cons hd t ih =>
    obtain ⟨a, b⟩ := hd
    obtain ⟨ha, hb⟩ := h (a, b) (List.mem_cons_self _ _)
    rcases Option.isSome_iff_exists.mp ha with ⟨va, hva⟩
    rcases Option.isSome_iff_exists.mp hb with ⟨vb, hvb⟩
    rcases ih (fun pr hpr => h pr (List.mem_cons_of_mem _ hpr)) with ⟨segs, hs, hlen⟩
    refine ⟨(va.x, va.y, vb.x, vb.y) :: segs, ?_, by simp [hlen]⟩
    simp only [segsOfPairs]
    rw [hva, hvb, hs]
    rfl

theorem segsOfPairs_some_forall {projected : List (Option Vec3)}
    {pairs : List (ℕ × ℕ)} {segs : List Segment}
    (h : segsOfPairs projected pairs = some segs) :
    ∀ pr ∈ pairs, (lookupProjected projected pr.1).isSome ∧
      (lookupProjected projected pr.2).isSome := by
  induction pairs generalizing segs with
  | nil => intro pr hpr; cases hpr
  | cons hd t ih =>
    obtain ⟨a, b⟩ := hd
    intro pr hpr
    simp only [segsOfPairs] at h
    cases hA : lookupProjected projected a with
    | none => rw [hA] at h; cases h
    | some va =>
      cases hB : lookupProjected projected b with
      | none => rw [hA, hB] at h; cases h
      | some vb =>
        rw [hA, hB] at h
        cases hrec : segsOfPairs projected t with
        | none => rw [hrec] at h; cases h
        | some segs' =>
          rcases List.mem_cons.mp hpr with heq | hmem'
          · subst heq
            exact ⟨by rw [hA]; rfl, by rw [hB]; rfl⟩
          · exact ih hrec pr hmem'

/-! ### Properties of polygon emission -/

theorem collectPolygonSegments_short {projected : List (Option Vec3)}
    {p : Polygon} (h : p.vertexIndices.length < 2) :
    collectPolygonSegments projected p = some [] := by
  rw [collectPolygonSegments, if_pos h]

theorem collectPolygonSegments_none_of_invalid {projected : List (Option Vec3)}
    {p : Polygon} (h2 : 2 ≤ p.vertexIndices.length)
    (h : ∃ i ∈ p.vertexIndices, lookupProjected projected i = none) :
    collectPolygonSegments projected p = none := by
  rcases h with ⟨i, hi, hnone⟩
  rw [collectPolygonSegments, if_neg (not_lt.mpr h2)]
  rcases exists_fst_cyclicPairs hi with ⟨pr, hpr, heq⟩
  exact segsOfPairs_eq_none hpr (heq ▸ hnone)

theorem collectPolygonSegments_some_of_valid {projected : List (Option Vec3)}
    {p : Polygon} (h2 : 2 ≤ p.vertexIndices.length)
    (h : ∀ i ∈ p.vertexIndices, (lookupProjected projected i).isSome) :
    ∃ segs, collectPolygonSegments projected p = some segs ∧
      segs.length = p.vertexIndices.length := by
  rw [collectPolygonSegments, if_neg (not_lt.mpr h2)]
  rcases segsOfPairs_isSome_all
      (fun pr hpr => ⟨h pr.1 (fst_mem_of_mem_cyclicPairs hpr),
        h pr.2 (snd_mem_of_mem_cyclicPairs hpr)⟩) with ⟨segs, hs, hlen⟩
  exact ⟨segs, hs, hlen.trans (cyclicPairs_length _)⟩

theorem emitPolygon_none_of_invalid {cam : List Vec3}
    {projected : List (Option Vec3)} {p : Polygon}
    (h : ∃ i ∈ p.vertexIndices, lookupProjected projected i = none) :
    emitPolygon cam projected p = none := by
  by_cases hlen : p.vertexIndices.length < 2
  · rw [emitPolygon, collectPolygonSegments_short hlen]
    rfl
  · rw [emitPolygon,
      collectPolygonSegments_none_of_invalid (not_lt.mp hlen) h]

theorem emitPolygon_some_of_valid {cam : List Vec3}
    {projected : List (Option Vec3)} {p : Polygon}
    (h2 : 2 ≤ p.vertexIndices.length)
    (h : ∀ i ∈ p.vertexIndices, (lookupProjected projected i).isSome) :
    ∃ segs, emitPolygon cam projected p =
        some ⟨p.color, segs, polygonDepth p.vertexIndices cam⟩ ∧
      segs.length = p.vertexIndices.length := by
  rcases collectPolygonSegments_some_of_valid h2 h with ⟨segs, hc, hlen⟩
  have hpos : segs.length > 0 := by omega
  refine ⟨segs, ?_, hlen⟩
  rw [emitPolygon, hc]
  simp [hpos]

theorem emitPolygon_none_short {cam : List Vec3}
    {projected : List (Option Vec3)} {p : Polygon}
    (h : p.vertexIndices.length < 2) :
    emitPolygon cam projected p = none := by
  rw [emitPolygon, collectPolygonSegments_short h]
  rfl

theorem emitPolygon_some_inversion {cam : List Vec3}
    {projected : List (Option Vec3)} {p : Polygon} {b : DrawablePolygonBatch}
    (h : emitPolygon cam projected p = some b) :
    b.color = p.color ∧ b.depth = polygonDepth p.vertexIndices cam ∧
      2 ≤ p.vertexIndices.length ∧
      ∀ i ∈ p.vertexIndices, (lookupProjected projected i).isSome := by
  by_cases hlen : p.vertexIndices.length < 2
  · rw [emitPolygon_none_short hlen] at h
    cases h
  · rw [emitPolygon] at h
    cases hc : collectPolygonSegments projected p with
    | none => rw [hc] at h; cases h
    | some segs =>
      rw [hc] at h
      dsimp only at h
      by_cases hpos : segs.length > 0
      · rw [if_pos hpos] at h
        cases h
        refine ⟨rfl, rfl, not_lt.mp hlen, ?_⟩
        rw [collectPolygonSegments, if_neg hlen] at hc
        intro i hi
        rcases exists_fst_cyclicPairs hi with ⟨pr, hpr, heq⟩
        exact heq ▸ (segsOfPairs_some_forall hc pr hpr).1
      · rw [if_neg hpos] at h
        cases h

/-! ### Properties of the per-object loop and the orchestrator -/

theorem objectBatches_eq (isInFrustum : FrustumTest) (view : Mat4)
    (fovYRad aspect near far : ℚ) (viewProj : Mat4) (viewport : Viewport)
    (o : Object3D) :
    objectBatches isInFrustum view fovYRad aspect near far viewProj viewport o =
      if isInFrustum o.position
          (o.mesh.boundingRadius * max o.scale.x (max o.scale.y o.scale.z))
          view fovYRad aspect near far = false then []
      else o.mesh.polygons.filterMap
        (emitPolygon
          (transformVerticesToCameraSpace o.mesh.vertices
            (view.multiply o.getModelMatrix))
          (projectMeshVertices o.mesh.vertices
            (viewProj.multiply o.getModelMatrix) viewport)) := rfl

theorem mem_output_of_emit {isInFrustum : FrustumTest} {s : Scene}
    {viewProj : Mat4} {viewport : Viewport} {o : Object3D} {p : Polygon}
    {b : DrawablePolygonBatch} (ho : o ∈ s.objects)
    (hfr : isInFrustum o.position
      (o.mesh.boundingRadius * max o.scale.x (max o.scale.y o.scale.z))
      s.camera.getViewMatrix s.camera.fovYRad
      (viewport.width / viewport.height) s.camera.near s.camera.far = true)
    (hp : p ∈ o.mesh.polygons)
    (hemit : emitPolygon (objectCameraSpaceVertices s.camera.getViewMatrix o)
      (objectProjectedVertices viewProj viewport o) p = some b) :
    b ∈ projectSceneToPolygonWireframe isInFrustum s viewProj viewport := by
  have hcol : b ∈ collectedBatches isInFrustum s viewProj viewport := by
    unfold collectedBatches
    refine List.mem_flatMap.mpr ⟨o, ho, ?_⟩
    rw [objectBatches_eq, if_neg (by simp [hfr])]
    exact List.mem_filterMap.mpr ⟨p, hp, hemit⟩
  exact (sortByDepth_perm _).mem_iff.mpr hcol

theorem mem_collected_of_mem_output {isInFrustum : FrustumTest} {s : Scene}
    {viewProj : Mat4} {viewport : Viewport} {b : DrawablePolygonBatch}
    (hb : b ∈ projectSceneToPolygonWireframe isInFrustum s viewProj viewport) :
    ∃ o ∈ s.objects, ∃ p ∈ o.mesh.polygons,
      emitPolygon (objectCameraSpaceVertices s.camera.getViewMatrix o)
        (objectProjectedVertices viewProj viewport o) p = some b := by
  have hcol : b ∈ collectedBatches isInFrustum s viewProj viewport :=
    (sortByDepth_perm _).mem_iff.mp hb
  unfold collectedBatches at hcol
  rcases List.mem_flatMap.mp hcol with ⟨o, ho, hob⟩
  rw [objectBatches_eq] at hob
  by_cases hfr : isInFrustum o.position
      (o.mesh.boundingRadius * max o.scale.x (max o.scale.y o.scale.z))
      s.camera.getViewMatrix s.camera.fovYRad
      (viewport.width / viewport.height) s.camera.near s.camera.far = false
  · rw [if_pos hfr] at hob
    cases hob
  · rw [if_neg hfr] at hob
    rcases List.mem_filterMap.mp hob with ⟨p, hp, hemit⟩
    exact ⟨o, ho, p, hp, hemit⟩

theorem polygonDepth_eq_meanCameraZ {vertices : List Vec3} {viewModel : Mat4}
    {indices : List ℕ} (hne : indices ≠ [])
    (hin : ∀ i ∈ indices, i < vertices.length) :
    polygonDepth indices (transformVerticesToCameraSpace vertices viewModel) =
      meanCameraZ viewModel vertices indices := by
  unfold polygonDepth meanCameraZ
  rw [if_neg (by simpa using hne)]
  congr 2
  refine List.map_congr_left ?_
  intro i hi
  have hlt := hin i hi
  unfold transformVerticesToCameraSpace
  rw [List.getD_eq_getElem _ _ (by simpa using hlt), List.getD_eq_getElem _ _ hlt,
    List.getElem_map]

/-! ### Bounding-radius lemmas -/

theorem foldl_maxSq_eq_foldl_max (l : List Vec3) (init : ℚ) :
    l.foldl (fun maxSq p => if p.lengthSq > maxSq then p.lengthSq else maxSq)
        init =
      l.foldl (fun m p => max m p.lengthSq) init := by
  induction l generalizing init with
  | nil => rfl
  | cons p t ih =>
    rw [List.foldl_cons, List.foldl_cons, ih]
    rcases le_or_lt p.lengthSq init with h | h
    · rw [if_neg (not_lt.mpr h), max_eq_left h]
    · rw [if_pos h, max_eq_right (le_of_lt h)]

theorem real_sqrt_foldl_max (l : List Vec3) (init : ℚ) :
    Real.sqrt ((l.foldl (fun m p => max m p.lengthSq) init : ℚ) : ℝ) =
      l.foldl (fun m p => max m (distToOrigin p))
        (Real.sqrt ((init : ℚ) : ℝ)) := by
  induction l generalizing init with
  | nil => rfl
  | cons p t ih =>
    rw [List.foldl_cons, List.foldl_cons, ih]
    have hmax : Real.sqrt (((max init p.lengthSq : ℚ) : ℚ) : ℝ) =
        max (Real.sqrt ((init : ℚ) : ℝ)) (distToOrigin p) := by
      rw [Rat.cast_max,
        Monotone.map_max (fun a b hab => Real.sqrt_le_sqrt hab)]
      rfl
    rw [hmax]

/-! ### Claim theorems -/

/-- C8: Mesh construction sets the bounding radius to the maximum
Euclidean distance from the local origin to any point of the vertex
list, and to 0 for an empty list. -/
theorem boundingRadius_is_max_distance :
    (∀ (points : List Vec3) (edges : List (ℕ × ℕ)) (polys : List Polygon),
       (Mesh.create points edges polys).boundingRadius =
         (points.map distToOrigin).foldl max 0)
    ∧ ∀ (edges : List (ℕ × ℕ)) (polys : List Polygon),
        (Mesh.create [] edges polys).boundingRadius = 0 := by
  constructor
  · intro points edges polys
    show Mesh.computeBoundingRadius points = _
    unfold Mesh.computeBoundingRadius
    rw [foldl_maxSq_eq_foldl_max, real_sqrt_foldl_max points 0,
      List.foldl_map]
    norm_num
  · intro edges polys
    show Mesh.computeBoundingRadius [] = 0
    unfold Mesh.computeBoundingRadius
    norm_num

/-- C1 (counterexample): the claim that a polygon with backface-normal
`dot(n, v0) ≥ 0` (non-degenerate `n`) is discarded is false: the
back-facing triangle of `backfaceScene` has `dot(n, v0) = 1/2 ≥ 0` and
a unit-length normal, yet the orchestrator returns its batch. -/
theorem backface_not_culled_cex :
    0 ≤ Vec3.dot
        (polygonBackfaceNormal
          (objectCameraSpaceVertices originCamera.getViewMatrix backfaceObject)
          [0, 1, 2])
        (polygonViewDir
          (objectCameraSpaceVertices originCamera.getViewMatrix backfaceObject)
          [0, 1, 2])
    ∧ polygonBackfaceNormal
        (objectCameraSpaceVertices originCamera.getViewMatrix backfaceObject)
        [0, 1, 2] ≠ ⟨0, 0, 0⟩
    ∧ projectSceneToPolygonWireframe frustumAlwaysTrue backfaceScene
        flatViewProj stdViewport =
      [⟨"red", [(400, 300, 800, 0), (800, 0, 800, 300), (800, 300, 400, 300)],
        -1/2⟩] := by
  refine ⟨by decide, by decide, by decide⟩

/-- C1 (amended): the orchestrator performs no backface test.  A
polygon of a surviving object with at least two indices and all
referenced vertices validly projected is emitted even when its
backface normal satisfies `dot(n, v0) ≥ 0` and is non-degenerate —
no polygon is discarded based on winding. -/
theorem backface_polygon_retained (isInFrustum : FrustumTest) (s : Scene)
    (viewProj : Mat4) (viewport : Viewport) (o : Object3D) (p : Polygon)
    (ho : o ∈ s.objects)
    (hfr : isInFrustum o.position
      (o.mesh.boundingRadius * max o.scale.x (max o.scale.y o.scale.z))
      s.camera.getViewMatrix s.camera.fovYRad
      (viewport.width / viewport.height) s.camera.near s.camera.far = true)
    (hp : p ∈ o.mesh.polygons) (h2 : 2 ≤ p.vertexIndices.length)
    (hvalid : ∀ i ∈ p.vertexIndices,
      (lookupProjected (objectProjectedVertices viewProj viewport o) i).isSome)
    (hback : 0 ≤ Vec3.dot
      (polygonBackfaceNormal (objectCameraSpaceVertices s.camera.getViewMatrix o)
        p.vertexIndices)
      (polygonViewDir (objectCameraSpaceVertices s.camera.getViewMatrix o)
        p.vertexIndices))
    (hnondeg : polygonBackfaceNormal
      (objectCameraSpaceVertices s.camera.getViewMatrix o) p.vertexIndices ≠
      ⟨0, 0, 0⟩) :
    ∃ segs, (⟨p.color, segs,
        polygonDepth p.vertexIndices
          (objectCameraSpaceVertices s.camera.getViewMatrix o)⟩ :
        DrawablePolygonBatch) ∈
      projectSceneToPolygonWireframe isInFrustum s viewProj viewport := by
  rcases @emitPolygon_some_of_valid
      (objectCameraSpaceVertices s.camera.getViewMatrix o)
      (objectProjectedVertices viewProj viewport o) p h2 hvalid with
    ⟨segs, hemit, _⟩
  exact ⟨segs, mem_output_of_emit ho hfr hp hemit⟩

/-- C1 (witness for the amended theorem): the concrete back-facing
triangle is retained. -/
theorem backface_polygon_retained_witness :
    ∃ segs, (⟨"red", segs,
        polygonDepth [0, 1, 2]
          (objectCameraSpaceVertices originCamera.getViewMatrix
            backfaceObject)⟩ : DrawablePolygonBatch) ∈
      projectSceneToPolygonWireframe frustumAlwaysTrue backfaceScene
        flatViewProj stdViewport := by
  exact backface_polygon_retained frustumAlwaysTrue backfaceScene flatViewProj
    stdViewport backfaceObject ⟨"red", [0, 1, 2]⟩ (by decide) (by decide)
    (by decide) (by decide) (by decide) (by decide) (by decide)

/-- C2 (counterexample): constructing a Mesh from data whose polygon
references vertex index 5 of a one-point mesh does not fail — the mesh
is built and stores the invalid polygon unchanged, even though the
data violates the index-range contract. -/
theorem mesh_construction_unvalidated_cex :
    (Mesh.fromData outOfRangeMeshData).polygons = [outOfRangePolygon]
    ∧ ¬ meshDataIndicesValid outOfRangeMeshData :=
  ⟨rfl, by decide⟩

/-- C2 (amended): Mesh construction performs no validation of
`vertexIndices`: `Mesh.fromData` always succeeds and stores the data
unchanged; an out-of-range index is instead handled at render time,
where the affected polygon is silently skipped (its projected-vertex
lookup is out of bounds, so no batch is emitted for it). -/
theorem mesh_construction_no_validation :
    (∀ data : MeshData,
       (Mesh.fromData data).points = data.points ∧
       (Mesh.fromData data).vertices = data.vertices ∧
       (Mesh.fromData data).polygons = data.polygons)
    ∧ ∀ (cam : List Vec3) (projected : List (Option Vec3)) (p : Polygon)
        (i : ℕ), i ∈ p.vertexIndices → projected.length ≤ i →
        emitPolygon cam projected p = none := by
  refine ⟨fun data => ⟨rfl, rfl, rfl⟩, ?_⟩
  intro cam projected p i hi hle
  exact emitPolygon_none_of_invalid ⟨i, hi, lookupProjected_of_length_le hle⟩

/-- C2 (witness for the amended theorem): the out-of-range mesh data is
stored unchanged, and the out-of-range polygon is skipped at render
time. -/
theorem mesh_construction_no_validation_witness :
    (Mesh.fromData outOfRangeMeshData).points = [⟨0, 0, 0⟩]
    ∧ emitPolygon [] [] outOfRangePolygon = none := by
  refine ⟨(mesh_construction_no_validation.1 outOfRangeMeshData).1, ?_⟩
  exact mesh_construction_no_validation.2 [] [] outOfRangePolygon 5
    (by decide) (by decide)

/-- C3: the orchestrator's output is sorted by depth ascending (most
negative first); batches of equal depth keep their insertion order
(the filter at every depth equals the filter of the pre-sort collected
list); and a batch of depth −10 always has a strictly smaller output
index than one of depth −5. -/
theorem output_depth_sorted_stable (isInFrustum : FrustumTest) (s : Scene)
    (viewProj : Mat4) (viewport : Viewport) :
    (projectSceneToPolygonWireframe isInFrustum s viewProj viewport).Pairwise
      (fun a c => a.depth ≤ c.depth)
    ∧ (∀ d : ℚ,
        (projectSceneToPolygonWireframe isInFrustum s viewProj viewport).filter
            (fun b => decide (b.depth = d)) =
          (collectedBatches isInFrustum s viewProj viewport).filter
            (fun b => decide (b.depth = d)))
    ∧ ∀ (i j : ℕ)
        (hi : i < (projectSceneToPolygonWireframe isInFrustum s viewProj
          viewport).length)
        (hj : j < (projectSceneToPolygonWireframe isInFrustum s viewProj
          viewport).length),
        ((projectSceneToPolygonWireframe isInFrustum s viewProj viewport).get
          ⟨i, hi⟩).depth = -10 →
        ((projectSceneToPolygonWireframe isInFrustum s viewProj viewport).get
          ⟨j, hj⟩).depth = -5 → i < j := by
  refine ⟨pairwise_sortByDepth _, fun d => filter_sortByDepth _ d, ?_⟩
  intro i j hi hj h10 h5
  rcases lt_trichotomy i j with h | h | h
  · exact h
  · exfalso
    subst h
    have heq : ((projectSceneToPolygonWireframe isInFrustum s viewProj
        viewport).get ⟨i, hi⟩) = ((projectSceneToPolygonWireframe isInFrustum s
        viewProj viewport).get ⟨i, hj⟩) := rfl
    have : (-10 : ℚ) = -5 := by rw [← h10, heq, h5]
    norm_num at this
  · exfalso
    have hpw : (projectSceneToPolygonWireframe isInFrustum s viewProj
        viewport).Pairwise (fun a c => a.depth ≤ c.depth) :=
      pairwise_sortByDepth _
    have hle := List.pairwise_iff_get.mp hpw ⟨j, hj⟩ ⟨i, hi⟩ h
    rw [h10, h5] at hle
    norm_num at hle

/-- C3 (witness): on the two-depth scene the stability filter holds at
depth −10, and the −10 batch (index 0) precedes the −5 batch
(index 1). -/
theorem output_depth_sorted_stable_witness :
    (projectSceneToPolygonWireframe frustumAlwaysTrue twoDepthScene
        flatViewProj stdViewport).filter (fun b => decide (b.depth = -10)) =
      (collectedBatches frustumAlwaysTrue twoDepthScene flatViewProj
        stdViewport).filter (fun b => decide (b.depth = -10))
    ∧ (0 : ℕ) < 1 := by
  refine ⟨(output_depth_sorted_stable frustumAlwaysTrue twoDepthScene
    flatViewProj stdViewport).2.1 (-10), ?_⟩
  exact (output_depth_sorted_stable frustumAlwaysTrue twoDepthScene
    flatViewProj stdViewport).2.2 0 1 (by decide) (by decide) (by decide)
    (by decide)

/-- C4: a polygon with any referenced vertex marked behind by
`projectPoint` is excluded (its emission is `none`, so no batch and no
partial segments); a polygon with at least two indices whose referenced
vertices all project validly is emitted as a batch with one segment per
boundary edge; and every emitted batch of a surviving object reaches
the orchestrator's output. -/
theorem behind_vertex_polygon_exclusion :
    (∀ (vertices : List Vec3) (mvp : Mat4) (viewport : Viewport)
       (cam : List Vec3) (p : Polygon),
       (∃ i ∈ p.vertexIndices, i < vertices.length ∧
          (projectPoint (vertices.getD i ⟨0, 0, 0⟩) mvp viewport).behind =
            true) →
       emitPolygon cam (projectMeshVertices vertices mvp viewport) p = none)
    ∧ (∀ (vertices : List Vec3) (mvp : Mat4) (viewport : Viewport)
        (cam : List Vec3) (p : Polygon), 2 ≤ p.vertexIndices.length →
        (∀ i ∈ p.vertexIndices, i < vertices.length ∧
           (projectPoint (vertices.getD i ⟨0, 0, 0⟩) mvp viewport).behind =
             false) →
        ∃ segs, emitPolygon cam (projectMeshVertices vertices mvp viewport) p =
            some ⟨p.color, segs, polygonDepth p.vertexIndices cam⟩ ∧
          segs.length = p.vertexIndices.length)
    ∧ ∀ (isInFrustum : FrustumTest) (s : Scene) (viewProj : Mat4)
        (viewport : Viewport) (o : Object3D) (p : Polygon)
        (b : DrawablePolygonBatch), o ∈ s.objects →
        isInFrustum o.position
          (o.mesh.boundingRadius * max o.scale.x (max o.scale.y o.scale.z))
          s.camera.getViewMatrix s.camera.fovYRad
          (viewport.width / viewport.height) s.camera.near s.camera.far =
          true →
        p ∈ o.mesh.polygons →
        emitPolygon (objectCameraSpaceVertices s.camera.getViewMatrix o)
          (objectProjectedVertices viewProj viewport o) p = some b →
        b ∈ projectSceneToPolygonWireframe isInFrustum s viewProj viewport := by
  refine ⟨?_, ?_, ?_⟩
  · rintro vertices mvp viewport cam p ⟨i, hi, hlt, hbehind⟩
    exact emitPolygon_none_of_invalid
      ⟨i, hi, lookupProjected_projectMesh_none hlt hbehind⟩
  · intro vertices mvp viewport cam p h2 hvalid
    exact emitPolygon_some_of_valid h2 (fun i hi =>
      lookupProjected_projectMesh_isSome (hvalid i hi).1 (hvalid i hi).2)
  · intro fr s viewProj viewport o p b ho hfr hp hemit
    exact mem_output_of_emit ho hfr hp hemit

/-- C4 (witness): a triangle with a behind vertex is excluded; a fully
valid triangle is emitted with three segments; and a concretely emitted
batch is in the output. -/
theorem behind_vertex_polygon_exclusion_witness :
    emitPolygon [] (projectMeshVertices behindMesh.vertices negZWViewProj
        stdViewport) ⟨"blue", [0, 1, 2]⟩ = none
    ∧ (∃ segs, emitPolygon []
        (projectMeshVertices backfaceMesh.vertices flatViewProj stdViewport)
        ⟨"red", [0, 1, 2]⟩ = some ⟨"red", segs, polygonDepth [0, 1, 2] []⟩ ∧
        segs.length = ([0, 1, 2] : List ℕ).length)
    ∧ (⟨"red", [(400, 300, 800, 0), (800, 0, 800, 300), (800, 300, 400, 300)],
        -1/2⟩ : DrawablePolygonBatch) ∈
      projectSceneToPolygonWireframe frustumAlwaysTrue backfaceScene
        flatViewProj stdViewport := by
  refine ⟨?_, ?_, ?_⟩
  · exact behind_vertex_polygon_exclusion.1 behindMesh.vertices negZWViewProj
      stdViewport [] ⟨"blue", [0, 1, 2]⟩ (by decide)
  · exact behind_vertex_polygon_exclusion.2.1 backfaceMesh.vertices
      flatViewProj stdViewport [] ⟨"red", [0, 1, 2]⟩ (by decide) (by decide)
  · exact behind_vertex_polygon_exclusion.2.2 frustumAlwaysTrue backfaceScene
      flatViewProj stdViewport backfaceObject ⟨"red", [0, 1, 2]⟩
      ⟨"red", [(400, 300, 800, 0), (800, 0, 800, 300), (800, 300, 400, 300)],
        -1/2⟩ (by decide) (by decide) (by decide) (by decide)

/-- C5: the orchestrator tests the world bounding sphere with
center = object.position and radius = boundingRadius · max(scale
components); when the frustum test returns false the object
contributes nothing — the output equals that of the scene without the
object. -/
theorem frustum_cull_skips_object (isInFrustum : FrustumTest) (cam : Camera)
    (l1 l2 : List Object3D) (o : Object3D) (viewProj : Mat4)
    (viewport : Viewport)
    (h : isInFrustum o.position
      (o.mesh.boundingRadius * max o.scale.x (max o.scale.y o.scale.z))
      cam.getViewMatrix cam.fovYRad (viewport.width / viewport.height)
      cam.near cam.far = false) :
    projectSceneToPolygonWireframe isInFrustum ⟨cam, l1 ++ o :: l2⟩ viewProj
        viewport =
      projectSceneToPolygonWireframe isInFrustum ⟨cam, l1 ++ l2⟩ viewProj
        viewport := by
  unfold projectSceneToPolygonWireframe collectedBatches
  congr 1
  simp only [List.flatMap_append, List.flatMap_cons]
  rw [objectBatches_eq, if_pos h]
  simp

/-- C5 (witness): with the always-false frustum test, a one-object
scene renders identically to the empty scene. -/
theorem frustum_cull_skips_object_witness :
    projectSceneToPolygonWireframe frustumAlwaysFalse
        ⟨originCamera, [twoDepthObject]⟩ flatViewProj stdViewport =
      projectSceneToPolygonWireframe frustumAlwaysFalse ⟨originCamera, []⟩
        flatViewProj stdViewport :=
  frustum_cull_skips_object frustumAlwaysFalse originCamera [] []
    twoDepthObject flatViewProj stdViewport rfl

/-- C6: every batch in the orchestrator's output carries as its depth
the arithmetic mean of the camera-space z coordinates (vertices
transformed by view · model) of the vertices listed in its polygon's
vertexIndices. -/
theorem emitted_depth_is_mean_camera_z (isInFrustum : FrustumTest) (s : Scene)
    (viewProj : Mat4) (viewport : Viewport) (b : DrawablePolygonBatch)
    (hb : b ∈ projectSceneToPolygonWireframe isInFrustum s viewProj viewport) :
    ∃ o ∈ s.objects, ∃ p ∈ o.mesh.polygons,
      b.depth = meanCameraZ (s.camera.getViewMatrix.multiply o.getModelMatrix)
        o.mesh.vertices p.vertexIndices := by
  rcases mem_collected_of_mem_output hb with ⟨o, ho, p, hp, hemit⟩
  rcases emitPolygon_some_inversion hemit with ⟨_, hdepth, h2, hvalid⟩
  refine ⟨o, ho, p, hp, ?_⟩
  rw [hdepth]
  show polygonDepth p.vertexIndices
    (transformVerticesToCameraSpace o.mesh.vertices
      (s.camera.getViewMatrix.multiply o.getModelMatrix)) = _
  apply polygonDepth_eq_meanCameraZ
  · intro hnil
    rw [hnil] at h2
    simp at h2
  · intro i hi
    have hlen := lookupProjected_lt_of_isSome (hvalid i hi)
    rwa [objectProjectedVertices, length_projectMeshVertices] at hlen

/-- C6 (witness): the −10 batch of the two-depth scene has the mean
camera-space z of its polygon. -/
theorem emitted_depth_is_mean_camera_z_witness :
    ∃ o ∈ twoDepthScene.objects, ∃ p ∈ o.mesh.polygons,
      (-10 : ℚ) = meanCameraZ
        (twoDepthScene.camera.getViewMatrix.multiply o.getModelMatrix)
        o.mesh.vertices p.vertexIndices := by
  exact emitted_depth_is_mean_camera_z frustumAlwaysTrue twoDepthScene
    flatViewProj stdViewport
    ⟨"far", [(400, 300, 800, 300), (800, 300, 400, 300)], -10⟩ (by decide)

/-- C7 (counterexample): the claim that returned records contain
exactly a color and a segments field is false: the records the
orchestrator returns still carry the depth field used for sorting
(−10 and −5 here), because the code only narrows the static type and
never strips the field. -/
theorem returned_batches_retain_depth_cex :
    projectSceneToPolygonWireframe frustumAlwaysTrue twoDepthScene flatViewProj
        stdViewport =
      [⟨"far", [(400, 300, 800, 300), (800, 300, 400, 300)], -10⟩,
       ⟨"near", [(400, 300, 800, 300), (800, 300, 400, 300)], -5⟩]
    ∧ (projectSceneToPolygonWireframe frustumAlwaysTrue twoDepthScene
        flatViewProj stdViewport).map (fun b => b.depth) = [-10, -5] := by
  refine ⟨by decide, by decide⟩

/-- C7 (amended): the returned sequence consists of the collected
`{color, segments, depth}` records themselves, reordered by the depth
sort; each element exposes the spec's `{color, segments}` view via
`stripDepth`, but the depth field is not removed. -/
theorem returned_batches_are_collected_records (isInFrustum : FrustumTest)
    (s : Scene) (viewProj : Mat4) (viewport : Viewport) :
    (projectSceneToPolygonWireframe isInFrustum s viewProj viewport).Perm
      (collectedBatches isInFrustum s viewProj viewport)
    ∧ ∀ b ∈ projectSceneToPolygonWireframe isInFrustum s viewProj viewport,
        stripDepth b = ⟨b.color, b.segments⟩ :=
  ⟨sortByDepth_perm _, fun _ _ => rfl⟩

/-- C7 (witness for the amended theorem). -/
theorem returned_batches_are_collected_records_witness :
    (projectSceneToPolygonWireframe frustumAlwaysTrue twoDepthScene
        flatViewProj stdViewport).Perm
      (collectedBatches frustumAlwaysTrue twoDepthScene flatViewProj
        stdViewport)
    ∧ stripDepth ⟨"far", [(400, 300, 800, 300), (800, 300, 400, 300)], -10⟩ =
        ⟨"far", [(400, 300, 800, 300), (800, 300, 400, 300)]⟩ := by
  refine ⟨(returned_batches_are_collected_records frustumAlwaysTrue
    twoDepthScene flatViewProj stdViewport).1, ?_⟩
  exact (returned_batches_are_collected_records frustumAlwaysTrue twoDepthScene
    flatViewProj stdViewport).2
    ⟨"far", [(400, 300, 800, 300), (800, 300, 400, 300)], -10⟩ (by decide)

/-- C9: the orchestrator is deterministic — equal inputs give equal
outputs. -/
theorem orchestrator_deterministic (isInFrustum : FrustumTest) (s s' : Scene)
    (viewProj viewProj' : Mat4) (viewport viewport' : Viewport)
    (hs : s = s') (hv : viewProj = viewProj') (hw : viewport = viewport') :
    projectSceneToPolygonWireframe isInFrustum s viewProj viewport =
      projectSceneToPolygonWireframe isInFrustum s' viewProj' viewport' := by
  rw [hs, hv, hw]

/-- C9 (witness). -/
theorem orchestrator_deterministic_witness :
    projectSceneToPolygonWireframe frustumAlwaysTrue twoDepthScene flatViewProj
        stdViewport =
      projectSceneToPolygonWireframe frustumAlwaysTrue twoDepthScene
        flatViewProj stdViewport :=
  orchestrator_deterministic frustumAlwaysTrue twoDepthScene twoDepthScene
    flatViewProj flatViewProj stdViewport stdViewport rfl rfl rfl

/-- C10: a polygon with fewer than two vertex indices yields the empty
segment list (not the invalid marker and not an error), and its
emission is `none`, so the orchestrator emits no batch for it. -/
theorem short_polygon_empty_segments (projected : List (Option Vec3))
    (cam : List Vec3) (p : Polygon) (h : p.vertexIndices.length < 2) :
    collectPolygonSegments projected p = some [] ∧
      emitPolygon cam projected p = none :=
  ⟨collectPolygonSegments_short h, emitPolygon_none_short h⟩

/-- C10 (witness): a one-index polygon. -/
theorem short_polygon_empty_segments_witness :
    collectPolygonSegments [some ⟨0, 0, 0⟩] ⟨"green", [0]⟩ = some [] ∧
      emitPolygon [] [some ⟨0, 0, 0⟩] ⟨"green", [0]⟩ = none :=
  short_polygon_empty_segments [some ⟨0, 0, 0⟩] [] ⟨"green", [0]⟩ (by decide)

end Wireframe
